import Mathlib

/-!
Verification of the Traffic Classification & Auth-Material Extraction
Pipeline of the unbrowse repository.

The development is a shallow embedding of the Rust core:
  - `native/src/parser/filters.rs` (knowledge base and filter predicates),
  - `native/src/parser/har.rs` (`parse_har`, `guess_auth_method`),
  - `native/src/auth/extractor.rs` (`generate_auth_json`,
    `detect_refresh_endpoint`).

Rust `String` operations are embedded as executable functions over
`List Char` (Lean `String.data`); Rust `HashMap`/`HashSet` accumulators are
embedded as insertion-ordered association lists with overwriting insert
(`upsert`) and `or_insert` (`orInsert`).  Where the Rust code's observable
behaviour depends on the (unspecified, randomly seeded) iteration order of
`std::collections::HashMap`, the embedding fixes insertion order and the
order sensitivity is analysed explicitly (see `guessAuthMethod`).
The external `url` crate's `Url::parse` is modelled by `parseUrl`
(scheme://authority/path splitting, lowercased scheme and host); the
external `serde_json` parser is modelled by pre-parsed `Json` values, with
`none` standing for an absent or unparsable body (both take the same code
path in the source).
-/

namespace Unbrowse

/-- Model of Rust `char::to_lowercase` restricted to ASCII (all data handled
by the pipeline's knowledge base is ASCII). -/
def lowerChar (c : Char) : Char := c.toLower

/-- Model of Rust `str::to_lowercase` (ASCII). -/
def lowerStr (s : String) : String := ⟨s.data.map lowerChar⟩

/-- Model of Rust `str::starts_with` on character lists. -/
def isPre : List Char → List Char → Bool
  | [], _ => true
  | _ :: _, [] => false
  | p :: ps, t :: ts => p == t && isPre ps ts

/-- Model of Rust `str::starts_with(pat)`. -/
def startsWithS (s pat : String) : Bool := isPre pat.data s.data

/-- Suffix test on character lists. -/
def isSuf (p t : List Char) : Bool := isPre p.reverse t.reverse

/-- Model of Rust `str::ends_with(pat)`. -/
def endsWithS (s pat : String) : Bool := isSuf pat.data s.data

/-- Does `pat` occur as a contiguous sublist of `t`?  Model of Rust
`str::contains`. -/
def subOf (pat : List Char) : List Char → Bool
  | [] => isPre pat []
  | c :: ts => isPre pat (c :: ts) || subOf pat ts

/-- Model of Rust `str::contains(pat)`. -/
def strContains (s pat : String) : Bool := subOf pat.data s.data

/-- Split at the first occurrence of `pat`, returning the parts before and
after it.  Model of Rust `str::find` + slicing and `str::split_once`. -/
def splitFirstL (pat : List Char) : List Char → Option (List Char × List Char)
  | [] => if isPre pat [] then some ([], []) else none
  | c :: ts =>
    if isPre pat (c :: ts) then some ([], (c :: ts).drop pat.length)
    else match splitFirstL pat ts with
      | some (a, b) => some (c :: a, b)
      | none => none

/-- String version of `splitFirstL`. -/
def splitFirstS (s pat : String) : Option (String × String) :=
  match splitFirstL pat.data s.data with
  | some (a, b) => some (⟨a⟩, ⟨b⟩)
  | none => none

/-- The part of `s` before the first occurrence of `pat`, when `pat` occurs.
Model of Rust `s.find(pat)` followed by `&s[..pos]`. -/
def beforeFirst (s pat : String) : Option String :=
  (splitFirstS s pat).map (·.1)

/-- Split on every occurrence of a separator character.  Model of Rust
`str::split(char)`. -/
def splitCharL (sep : Char) : List Char → List (List Char)
  | [] => [[]]
  | c :: ts =>
    let rest := splitCharL sep ts
    if c == sep then [] :: rest
    else match rest with
      | [] => [[c]]
      | r :: rs => (c :: r) :: rs

/-- String version of `splitCharL`. -/
def splitCharS (sep : Char) (s : String) : List String :=
  (splitCharL sep s.data).map (⟨·⟩)

/-- ASCII whitespace test used by `trimS`. -/
def isWs (c : Char) : Bool := c == ' ' || c == '\t' || c == '\n' || c == '\r'

/-- Model of Rust `str::trim` (whitespace restricted to ASCII). -/
def trimS (s : String) : String :=
  ⟨((s.data.dropWhile isWs).reverse.dropWhile isWs).reverse⟩

/-- Repeatedly strip the prefix `pat`, as Rust `str::trim_start_matches`
does; the fuel argument bounds the number of strips. -/
def trimRepFuel : Nat → List Char → List Char → List Char
  | 0, _, t => t
  | f + 1, pat, t =>
    if pat.isEmpty then t
    else if isPre pat t then trimRepFuel f pat (t.drop pat.length) else t

/-- Model of Rust `str::trim_start_matches(pat)`: strips every leading
repetition of `pat`. -/
def trimRep (pat t : List Char) : List Char := trimRepFuel t.length pat t

/-! Knowledge base, transliterated from `parser/filters.rs`. -/

/-- Static asset extensions to skip (`STATIC_EXTS`). -/
def STATIC_EXTS : List String :=
  [".css", ".js", ".png", ".jpg", ".jpeg", ".gif", ".svg", ".webp",
   ".woff", ".woff2", ".ico", ".map", ".ttf", ".eot", ".otf",
   ".mp4", ".webm", ".mp3", ".wav", ".ogg"]

/-- Third-party domains to skip (`SKIP_DOMAINS`). -/
def SKIP_DOMAINS : List String :=
  ["google-analytics.com", "analytics.google.com", "www.google-analytics.com",
   "mixpanel.com", "api-js.mixpanel.com", "mparticle.com", "jssdks.mparticle.com",
   "segment.io", "segment.com", "cdn.segment.com", "api.segment.io",
   "amplitude.com", "api.amplitude.com", "heap.io", "heapanalytics.com",
   "posthog.com", "i.posthog.com", "eu.i.posthog.com", "us.i.posthog.com",
   "plausible.io", "matomo.org", "stats.wp.com",
   "doubleclick.net", "googletagmanager.com", "googlesyndication.com",
   "facebook.com", "instagram.com", "connect.facebook.net",
   "appsflyer.com", "wa.appsflyer.com", "intentiq.com", "api.intentiq.com",
   "id5-sync.com", "diagnostics.id5-sync.com", "33across.com",
   "btloader.com", "api.btloader.com", "hbwrapper.com",
   "criteo.com", "criteo.net", "taboola.com", "outbrain.com",
   "stripe.com", "js.stripe.com", "r.stripe.com", "m.stripe.com",
   "paypal.com", "braintreegateway.com", "adyen.com",
   "intercom.io", "api-iam.intercom.io", "widget.intercom.io",
   "zendesk.com", "freshdesk.com", "drift.com", "crisp.chat",
   "hotjar.com", "script.hotjar.com", "clarity.ms", "sentry.io",
   "logrocket.io", "smartlook.com", "mouseflow.com",
   "cdn.jsdelivr.net", "unpkg.com", "cdnjs.cloudflare.com",
   "ajax.googleapis.com", "code.jquery.com",
   "onetrust.com", "geolocation.onetrust.com", "cookielaw.org", "cdn.cookielaw.org",
   "trustarc.com", "evidon.com",
   "accounts.google.com", "play.google.com", "stack-auth.com", "api.stack-auth.com",
   "auth0.com", "okta.com", "onelogin.com", "ping.com",
   "cdn-cgi", "challenges.cloudflare.com",
   "analytics.tiktok.com", "analytics-sg.tiktok.com", "mon.tiktokv.com",
   "mcs.tiktokw.com", "lf16-tiktok-web.tiktokcdn-us.com",
   "www.googletagmanager.com", "www.google.com", "google.com",
   "fonts.googleapis.com", "fonts.gstatic.com", "maps.googleapis.com",
   "www.gstatic.com", "apis.google.com", "ssl.gstatic.com",
   "pagead2.googlesyndication.com", "adservice.google.com",
   "translate.googleapis.com", "firebaseinstallations.googleapis.com",
   "graph.facebook.com", "www.facebook.com", "pixel.facebook.com",
   "platform.twitter.com", "syndication.twitter.com", "analytics.twitter.com",
   "newrelic.com", "nr-data.net", "bam.nr-data.net",
   "fullstory.com", "rs.fullstory.com",
   "launchdarkly.com", "app.launchdarkly.com",
   "datadoghq.com", "browser-intake-datadoghq.com",
   "bugsnag.com", "sessions.bugsnag.com",
   "rollbar.com", "raygun.io", "trackjs.com",
   "recaptcha.net", "hcaptcha.com", "challenges.cloudflare.com",
   "branch.io", "app.link", "adjust.com", "kochava.com",
   "applovin.com", "unity3d.com", "chartboost.com"]

/-- Auth header names to capture, exact lowercase matches
(`AUTH_HEADER_NAMES`; a `HashSet` in the source, only membership is used). -/
def AUTH_HEADER_NAMES : List String :=
  ["authorization", "x-api-key", "api-key", "apikey",
   "x-auth-token", "access-token", "x-access-token",
   "token", "x-token", "authtype", "mudra",
   "bearer", "jwt", "x-jwt", "x-jwt-token", "id-token", "id_token",
   "x-id-token", "refresh-token", "x-refresh-token",
   "x-apikey", "x-key", "key", "secret", "x-secret",
   "api-secret", "x-api-secret", "client-secret", "x-client-secret",
   "session", "session-id", "sessionid", "x-session", "x-session-id",
   "x-session-token", "session-token", "csrf", "x-csrf", "x-csrf-token",
   "csrf-token", "x-xsrf-token", "xsrf-token",
   "x-oauth-token", "oauth-token", "x-oauth", "oauth",
   "x-amz-security-token", "x-amz-access-token",
   "x-goog-api-key", "x-rapidapi-key",
   "ocp-apim-subscription-key", "x-functions-key",
   "x-auth", "x-authentication", "x-authorization",
   "x-user-token", "x-app-token", "x-client-token",
   "x-access-key", "x-secret-key", "x-signature",
   "x-request-signature", "signature"]

/-- Substring patterns that indicate an auth-related header
(`AUTH_HEADER_PATTERNS`). -/
def AUTH_HEADER_PATTERNS : List String :=
  ["auth", "token", "key", "secret", "bearer", "jwt",
   "session", "credential", "password", "signature", "sign",
   "api-", "apikey", "access", "oauth", "csrf", "xsrf"]

/-- Standard browser headers that are not custom API auth
(`STANDARD_HEADERS`). -/
def STANDARD_HEADERS : List String :=
  ["x-requested-with", "x-forwarded-for", "x-forwarded-host",
   "x-forwarded-proto", "x-real-ip", "x-frame-options",
   "x-content-type-options", "x-xss-protection", "x-ua-compatible",
   "x-dns-prefetch-control", "x-download-options", "x-permitted-cross-domain-policies",
   "x-powered-by", "x-request-id", "x-correlation-id", "x-trace-id",
   "x-amz-cf-id", "x-amz-cf-pop", "x-cache", "x-cache-hits"]

/-- Context header names to capture, business identifiers
(`CONTEXT_HEADER_NAMES`). -/
def CONTEXT_HEADER_NAMES : List String :=
  ["outletid", "userid", "supplierid", "companyid", "tenantid",
   "organizationid", "accountid", "workspaceid", "projectid",
   "x-tenant-id", "x-org-id", "x-workspace-id"]

/-- Path prefixes to skip (`SKIP_PATHS`). -/
def SKIP_PATHS : List String :=
  ["/cdn-cgi/", "/_next/data/", "/__nextjs", "/sockjs-node/",
   "/favicon", "/manifest.json", "/robots.txt", "/sitemap",
   "/.well-known/", "/apple-app-site-association",
   "/service-worker", "/sw.js", "/workbox-"]

/-! Filter predicates from `parser/filters.rs`. -/

/-- Embedding of `is_auth_like_header`. -/
def isAuthLikeHeader (name : String) : Bool :=
  let lower := lowerStr name
  if AUTH_HEADER_NAMES.contains lower then true
  else AUTH_HEADER_PATTERNS.any (fun p => strContains lower p)

/-- Embedding of `is_standard_header`. -/
def isStandardHeader (name : String) : Bool :=
  STANDARD_HEADERS.contains (lowerStr name)

/-- Embedding of `is_http2_pseudo_header`. -/
def isHttp2PseudoHeader (name : String) : Bool := startsWithS name ":"

/-- Parsed URL components, modelling the fields of the external `url`
crate's `Url` that the pipeline reads: `scheme()`, `host_str()`, `path()`. -/
structure UrlParts where
  scheme : String
  host : Option String
  path : String
  deriving DecidableEq, Repr

/-- Model of the external `url` crate's `Url::parse`, restricted to
hierarchical `scheme://[userinfo@]host[:port]/path[?query][#frag]` URLs:
the scheme must be non-empty and alphabetic and be followed by `://`;
scheme and host are lowercased as the crate does; an absent or empty host
yields `host = none`; an empty path becomes `/`. -/
def parseUrl (s : String) : Option UrlParts :=
  match splitFirstS s "://" with
  | none => none
  | some (sch, rest) =>
    if sch.data.isEmpty || !(sch.data.all Char.isAlpha) then none
    else
      let authority := rest.data.takeWhile (fun c => !(c == '/' || c == '?' || c == '#'))
      let afterAuth := rest.data.drop authority.length
      let hostPort :=
        match splitFirstL ['@'] authority with
        | some (_, hp) => hp
        | none => authority
      let host := hostPort.takeWhile (fun c => !(c == ':'))
      let path := afterAuth.takeWhile (fun c => !(c == '?' || c == '#'))
      some { scheme := lowerStr ⟨sch.data⟩
             host := if host.isEmpty then none else some (lowerStr ⟨host⟩)
             path := if path.isEmpty then "/" else ⟨path⟩ }

/-- Embedding of `is_static_asset`. -/
def isStaticAsset (urlStr : String) : Bool :=
  match parseUrl urlStr with
  | some u =>
    let path := lowerStr u.path
    if STATIC_EXTS.any (fun e => endsWithS path e) then true
    else SKIP_PATHS.any (fun p => startsWithS path p)
  | none => false

/-- Embedding of `is_skipped_domain`. -/
def isSkippedDomain (domain : String) : Bool :=
  let lower := lowerStr domain
  SKIP_DOMAINS.any (fun skip => strContains lower skip)

/-- Embedding of `is_html_content_type`. -/
def isHtmlContentType (contentType : String) : Bool :=
  let ct := lowerStr contentType
  strContains ct "text/html" || strContains ct "application/xhtml"

/-- Embedding of `is_api_like`. -/
def isApiLike (urlStr method domain : String) (contentType : Option String) : Bool :=
  let ctHit :=
    match contentType with
    | some ct => strContains ct "application/json" || strContains ct "text/json"
    | none => false
  if ctHit then true
  else
    let urlLower := lowerStr urlStr
    strContains urlLower "/api/"
      || strContains urlLower "/services/"
      || strContains urlLower "/v1/"
      || strContains urlLower "/v2/"
      || strContains urlLower "/v3/"
      || strContains urlLower "/graphql"
      || strContains urlLower "/order"
      || strContains urlLower "/quote"
      || strContains urlLower "/swap"
      || strContains urlLower "/tokens"
      || strContains urlLower "/markets"
      || strContains urlLower "/user"
      || strContains urlLower "/auth"
      || strContains urlLower "/account"
      || strContains urlLower "/profile"
      || strContains urlLower "/data"
      || strContains urlLower "/query"
      || strContains urlLower "/mutation"
      || strContains urlLower "/rpc"
      || ["POST", "PUT", "DELETE", "PATCH"].contains method
      || strContains domain "api."
      || strContains domain "service"
      || strContains domain "quote"
      || startsWithS domain "dev-"
      || startsWithS domain "staging-"

/-- Join a list of labels with dots; used by `getRootDomain`. -/
def joinDots : List String → String
  | [] => ""
  | [x] => x
  | x :: xs => x ++ "." ++ joinDots xs

/-- Embedding of `get_root_domain`: the last two dot-separated labels. -/
def getRootDomain (domain : String) : String :=
  let parts := splitCharS '.' domain
  if parts.length ≥ 2 then joinDots (parts.drop (parts.length - 2))
  else domain

/-- Embedding of `is_same_root_domain`. -/
def isSameRootDomain (d1 d2 : String) : Bool :=
  getRootDomain d1 == getRootDomain d2

/-- The TLD alternatives of the regex in `derive_service_name`. -/
def TLDS : List String :=
  ["com", "org", "net", "co", "io", "ai", "app", "sg", "dev", "xyz",
   "gg", "fm", "tv", "me", "so", "to"]

/-- Model of `replace_all` with the anchored regex
`\.(com|org|net|co|io|ai|app|sg|dev|xyz|gg|fm|tv|me|so|to)\.?$`: at most
one match is possible, stripping one trailing TLD label together with an
optional trailing dot. -/
def stripTld (l : List Char) : List Char :=
  match TLDS.find? (fun t => isSuf ('.' :: t.data) l) with
  | some t => l.take (l.length - (t.data.length + 1))
  | none =>
    if isSuf ['.'] l then
      let l1 := l.take (l.length - 1)
      match TLDS.find? (fun t => isSuf ('.' :: t.data) l1) with
      | some t => l1.take (l1.length - (t.data.length + 1))
      | none => l
    else l

/-- Common tail of service-name derivation: TLD strip, dot-to-hyphen
replacement, lowercasing, and the `unknown-api` fallback for an empty
result. -/
def finishName (n0 : List Char) : String :=
  let n1 := stripTld n0
  let n2 := (n1.map (fun c => if c == '.' then '-' else c)).map lowerChar
  if n2.isEmpty then "unknown-api" else ⟨n2⟩

/-- Embedding of `derive_service_name`: the chained
`trim_start_matches("www.") .. ("api.") .. ("app.") .. ("m.")` followed by
TLD strip and normalization. -/
def deriveServiceName (domain : String) : String :=
  finishName (trimRep "m.".data (trimRep "app.".data
      (trimRep "api.".data (trimRep "www.".data domain.data))))

/-! Association lists embedding the `HashMap<String, String>` accumulators.
Keys are unique by construction; `upsert` models `HashMap::insert`
(overwriting), `orInsert` models `entry(..).or_insert_with(..)`.  Iteration
order of the embedding is insertion order; the Rust `HashMap` iteration
order is unspecified and randomly seeded, which is analysed separately
where observable. -/

/-- Association list of string pairs. -/
abbrev AList := List (String × String)

/-- First value bound to `k`, modelling `HashMap::get`. -/
def lookup : AList → String → Option String
  | [], _ => none
  | (k', v') :: t, k => if k' = k then some v' else lookup t k

/-- Overwriting insert, modelling `HashMap::insert`. -/
def upsert : AList → String → String → AList
  | [], k, v => [(k, v)]
  | (k', v') :: t, k, v =>
    if k' = k then (k, v) :: t else (k', v') :: upsert t k v

/-- Insert only when the key is absent, modelling
`entry(k).or_insert_with(..)`. -/
def orInsert : AList → String → String → AList
  | [], k, v => [(k, v)]
  | (k', v') :: t, k, v =>
    if k' = k then (k', v') :: t else (k', v') :: orInsert t k v

/-- Insertion-ordered set insert, modelling `HashSet::insert`. -/
def setInsert (l : List String) (x : String) : List String :=
  if l.contains x then l else l ++ [x]

/-! HAR data model, from `types.rs`. -/

/-- One request or response header (`HarHeader`). -/
structure HarHeader where
  name : String
  value : String
  deriving DecidableEq, Repr

/-- One request cookie (`HarCookie`; the pipeline reads only name and
value, the remaining optional fields are never consulted by the embedded
code and are omitted). -/
structure HarCookie where
  name : String
  value : String
  deriving DecidableEq, Repr

/-- Request body (`HarPostData`). -/
structure HarPostData where
  mimeType : Option String
  text : Option String
  deriving DecidableEq, Repr

/-- Captured request (`HarRequest`). -/
structure HarRequest where
  method : String
  url : String
  headers : List HarHeader
  cookies : Option (List HarCookie)
  postData : Option HarPostData
  deriving DecidableEq, Repr

/-- Response content (`HarContent`). -/
structure HarContent where
  size : Option Int
  mimeType : Option String
  text : Option String
  deriving DecidableEq, Repr

/-- Captured response (`HarResponse`). -/
structure HarResponse where
  status : Int
  headers : List HarHeader
  content : Option HarContent
  deriving DecidableEq, Repr

/-- One captured exchange (`HarEntry`; the timing fields are never read by
the pipeline). -/
structure HarEntry where
  request : HarRequest
  response : HarResponse
  deriving DecidableEq, Repr

/-- Retained record of an accepted exchange (`ParsedRequest`). -/
structure ParsedRequest where
  method : String
  url : String
  path : String
  domain : String
  status : Int
  responseContentType : Option String
  fromSpec : Option Bool
  requestBody : Option String
  responseBody : Option String
  deriving DecidableEq, Repr

/-- Aggregate result of one pipeline run (`ApiData`).  `baseUrls` and the
four mappings are `HashSet`/`HashMap` in the source; the embedding keeps
them in insertion order. -/
structure ApiData where
  service : String
  baseUrls : List String
  baseUrl : String
  authHeaders : AList
  authMethod : String
  cookies : AList
  authInfo : AList
  requests : List ParsedRequest
  endpoints : List (String × List ParsedRequest)
  deriving DecidableEq, Repr

/-- Embedding of `get_response_content_type`: value of the first response
header named `content-type` (case-insensitive). -/
def getResponseContentType (e : HarEntry) : Option String :=
  (e.response.headers.find? (fun h => lowerStr h.name == "content-type")).map (·.value)

/-- Embedding of `guess_auth_method` from `parser/har.rs`.  The argument
lists stand for `auth_headers` and `cookies`; the source iterates them in
`HashMap` order, here represented by the list order (so the result of this
function depends on that order exactly as the source's does). -/
def guessAuthMethod (authHeaders cookies : AList) : String :=
  let headerNames : List String := authHeaders.map (fun p => lowerStr p.1)
  let headerValues : List String := authHeaders.map (fun p => p.2)
  if headerValues.any (fun v => startsWithS (lowerStr v) "bearer ") then
    "Bearer Token"
  else
    match headerNames.filter (fun h =>
        strContains h "api-key" || strContains h "apikey"
          || h == "x-api-key" || h == "x-key") with
    | h :: _ => "API Key (" ++ h ++ ")"
    | [] =>
    match headerNames.filter (fun h =>
        strContains h "jwt" || strContains h "id-token" || strContains h "id_token") with
    | h :: _ => "JWT (" ++ h ++ ")"
    | [] =>
    match (if headerNames.contains "authorization" then
        (lookup authHeaders "authorization").orElse
          (fun _ => lookup authHeaders "Authorization")
      else none) with
    | some authValue =>
      let lower := lowerStr authValue
      if startsWithS lower "basic " then "Basic Auth"
      else if startsWithS lower "digest " then "Digest Auth"
      else "Authorization Header"
    | none =>
    match headerNames.filter (fun h =>
        strContains h "session" || strContains h "csrf" || strContains h "xsrf") with
    | h :: _ => "Session Token (" ++ h ++ ")"
    | [] =>
    if headerNames.any (fun h => strContains h "amz") then "AWS Signature"
    else if (lookup authHeaders "mudra").isSome then "Mudra Token"
    else
    match headerNames.filter (fun h => strContains h "oauth") with
    | h :: _ => "OAuth (" ++ h ++ ")"
    | [] =>
    match headerNames.filter (fun h => strContains h "auth" || strContains h "token") with
    | h :: _ => "Custom Token (" ++ h ++ ")"
    | [] =>
    match headerNames.filter (fun h => startsWithS h "x-") with
    | h :: _ => "Custom Header (" ++ h ++ ")"
    | [] =>
    let authCookieNames :=
      ["session", "sessionid", "token", "authtoken", "jwt", "auth",
       "access_token", "accesstoken", "id_token", "refresh_token"]
    match authCookieNames.find? (fun n =>
        cookies.any (fun c => lowerStr c.1 == n)) with
    | some n => "Cookie-based (" ++ n ++ ")"
    | none =>
    match cookies.filter (fun c =>
        let lower := lowerStr c.1
        strContains lower "auth" || strContains lower "token"
          || strContains lower "session") with
    | c :: _ => "Cookie-based (" ++ c.1 ++ ")"
    | [] => "Unknown (may need login)"

/-- Mutable accumulator state of the entry loop in `parse_har`. -/
structure ParseState where
  requests : List ParsedRequest
  authHeaders : AList
  cookies : AList
  authInfo : AList
  baseUrls : List String
  targetDomains : List String
  deriving DecidableEq, Repr

/-- The empty initial accumulator state of `parse_har`. -/
def initState : ParseState :=
  { requests := [], authHeaders := [], cookies := [], authInfo := []
    baseUrls := [], targetDomains := [] }

/-- Embedding of the request-header loop body of `parse_har`
(har.rs lines 218-240): pseudo-header skip, auth-like capture, context
capture, and first-wins capture of non-standard `x-` headers. -/
def headerStep (st : ParseState) (h : HarHeader) : ParseState :=
  let name := lowerStr h.name
  let value := h.value
  if isHttp2PseudoHeader name then st
  else
    let st1 :=
      if isAuthLikeHeader name then
        { st with authHeaders := upsert st.authHeaders name value
                  authInfo := upsert st.authInfo ("request_header_" ++ name) value }
      else st
    let st2 :=
      if CONTEXT_HEADER_NAMES.contains name then
        { st1 with authInfo := upsert st1.authInfo ("request_header_" ++ name) value }
      else st1
    if startsWithS name "x-" && !isStandardHeader name && value != "" then
      { st2 with authInfo := orInsert st2.authInfo ("request_header_" ++ name) value }
    else st2

/-- Fold of `headerStep` over a request's header list. -/
def headersFold (st : ParseState) (hs : List HarHeader) : ParseState :=
  hs.foldl headerStep st

/-- Embedding of the request-cookie loop body of `parse_har`
(har.rs lines 243-251). -/
def cookieStep (st : ParseState) (c : HarCookie) : ParseState :=
  { st with cookies := upsert st.cookies c.name c.value
            authInfo := upsert st.authInfo ("request_cookie_" ++ c.name) c.value }

/-- Fold of `cookieStep` over a request's cookie list. -/
def cookiesFold (st : ParseState) (cs : List HarCookie) : ParseState :=
  cs.foldl cookieStep st

/-- Embedding of the response `Set-Cookie` loop body of `parse_har`
(har.rs lines 254-273): split at the first `=`, then at the first `;`
after it — never on commas. -/
def setCookieStep (st : ParseState) (h : HarHeader) : ParseState :=
  if lowerStr h.name == "set-cookie" then
    match splitFirstS h.value "=" with
    | some (rawName, rest) =>
      let cookieName := trimS rawName
      let cookieValue :=
        match beforeFirst rest ";" with
        | some v => trimS v
        | none => trimS rest
      if cookieName != "" && cookieValue != "" then
        { st with authInfo :=
            upsert st.authInfo ("response_setcookie_" ++ cookieName) cookieValue }
      else st
    | none => st
  else st

/-- The accept branch of the entry loop of `parse_har` (har.rs lines
214-290): record the target domain and base URL, extract auth material
from request headers, request cookies, and response `Set-Cookie` headers,
and retain the request. -/
def acceptEntry (st : ParseState) (e : HarEntry) (parsed : UrlParts)
    (domain : String) : ParseState :=
  let st := { st with
    targetDomains := setInsert st.targetDomains domain
    baseUrls := setInsert st.baseUrls (parsed.scheme ++ "://" ++ domain) }
  let st := headersFold st e.request.headers
  let st :=
    match e.request.cookies with
    | some cs => cookiesFold st cs
    | none => st
  let st := e.response.headers.foldl setCookieStep st
  let requestBody := e.request.postData.bind (fun pd => pd.text)
  let responseBody := e.response.content.bind (fun c => c.text)
  { st with requests := st.requests ++
      [{ method := e.request.method, url := e.request.url, path := parsed.path
         domain := domain, status := e.response.status
         responseContentType := getResponseContentType e
         fromSpec := none
         requestBody := requestBody, responseBody := responseBody }] }

/-- Embedding of one iteration of the entry loop of `parse_har`
(har.rs lines 164-290): the relevance filter followed by auth-material
extraction and retention of the accepted request. -/
def entryStep (seedDomain : Option String) (st : ParseState) (e : HarEntry) : ParseState :=
  let urlStr := e.request.url
  let method := e.request.method
  let responseContentType := getResponseContentType e
  if isStaticAsset urlStr then st
  else
    match parseUrl urlStr with
    | none => st
    | some parsed =>
      match parsed.host with
      | none => st
      | some domain =>
        if isSkippedDomain domain then st
        else if method == "GET"
            && (responseContentType.map isHtmlContentType).getD false then st
        else
          let isSeedRelated :=
            match seedDomain with
            | some sd => isSameRootDomain domain sd
            | none => false
          let isTargetDomain := st.targetDomains.contains domain || isSeedRelated
          if !isApiLike urlStr method domain responseContentType
              && !st.targetDomains.isEmpty && !isTargetDomain then st
          else acceptEntry st e parsed domain

/-- Append a request to its endpoint group, modelling
`endpoints.entry(key).or_default().push(req)` on an insertion-ordered map. -/
def groupPush (l : List (String × List ParsedRequest)) (k : String)
    (r : ParsedRequest) : List (String × List ParsedRequest) :=
  match l with
  | [] => [(k, [r])]
  | (k', rs) :: t =>
    if k' = k then (k', rs ++ [r]) :: t else (k', rs) :: groupPush t k r

/-- Bump a domain occurrence count, used by the most-frequent-domain
selection. -/
def bumpCount (l : List (String × Nat)) (k : String) : List (String × Nat) :=
  match l with
  | [] => [(k, 1)]
  | (k', n) :: t =>
    if k' = k then (k', n + 1) :: t else (k', n) :: bumpCount t k

/-- Model of `max_by_key(|(_, count)| *count)` over the counts: among
maximal counts the element iterated last wins, with the embedding's
iteration order being insertion order. -/
def maxByCount (l : List (String × Nat)) : Option String :=
  (l.foldl (fun acc p =>
      match acc with
      | none => some p
      | some q => if p.2 ≥ q.2 then some p else some q) none).map (·.1)

/-- Embedding of the seed-URL extraction at the top of `parse_har`
(har.rs lines 151-162): the pair of optional seed domain and seed base
URL. -/
def seedInfo (seedUrl : Option String) : Option String × Option String :=
  match seedUrl with
  | some url =>
    match parseUrl url with
    | some parsed =>
      (parsed.host, some (parsed.scheme ++ "://" ++ parsed.host.getD ""))
    | none => (none, none)
  | none => (none, none)

/-- The accumulator state produced by the entry loop of `parse_har`. -/
def parseHarState (seedDomain : Option String) (entries : List HarEntry) : ParseState :=
  entries.foldl (entryStep seedDomain) initState

/-- Embedding of the endpoint grouping of `parse_har` (har.rs lines
293-297): group accepted requests by the key `"{domain}:{path}"`,
preserving capture order within and across keys. -/
def groupEndpoints (reqs : List ParsedRequest) : List (String × List ParsedRequest) :=
  reqs.foldl (fun eps req => groupPush eps (req.domain ++ ":" ++ req.path) req) []

/-- Embedding of the service-name and base-URL resolution of `parse_har`
(har.rs lines 300-354). -/
def resolveServiceBase (st : ParseState) (seedDomain seedBaseUrl : Option String) :
    String × String :=
  let apiDomains := st.targetDomains.filter (fun d =>
    strContains d "api." || strContains d "quote" || strContains d "service"
      || startsWithS d "dev-")
  let bestApiDomain :=
    if !apiDomains.isEmpty then
      maxByCount (st.requests.foldl
        (fun counts req =>
          if apiDomains.contains req.domain then bumpCount counts req.domain
          else counts) [])
    else none
  match bestApiDomain, seedDomain with
  | some best, some sd =>
    if isSameRootDomain best sd then (deriveServiceName sd, "https://" ++ best)
    else
      match seedBaseUrl with
      | some sbu => (deriveServiceName sd, sbu)
      | none => ("unknown-api", "https://api.example.com")
  | _, _ =>
    match seedDomain with
    | some sd =>
      (deriveServiceName sd, seedBaseUrl.getD "https://api.example.com")
    | none =>
      if !st.targetDomains.isEmpty then
        match maxByCount (st.requests.foldl
            (fun counts req => bumpCount counts req.domain) []) with
        | some mainDomain =>
          (deriveServiceName mainDomain, "https://" ++ mainDomain)
        | none => ("unknown-api", "https://api.example.com")
      else
        match st.baseUrls with
        | first :: _ =>
          match parseUrl first with
          | some parsed =>
            (deriveServiceName (parsed.host.getD "unknown"), first)
          | none => ("unknown-api", "https://api.example.com")
        | [] => ("unknown-api", "https://api.example.com")

/-- Assembly of the final `ApiData` from the accumulator state and the
seed information (the code after the entry loop of `parse_har`). -/
def assembleApi (seedPair : Option String × Option String) (st : ParseState) : ApiData :=
  let serviceBase := resolveServiceBase st seedPair.1 seedPair.2
  { service := serviceBase.1
    baseUrls := st.baseUrls
    baseUrl := serviceBase.2
    authHeaders := st.authHeaders
    authMethod := guessAuthMethod st.authHeaders st.cookies
    cookies := st.cookies
    authInfo := st.authInfo
    requests := st.requests
    endpoints := groupEndpoints st.requests }

/-- Embedding of `parse_har` from `parser/har.rs`, starting after the
`serde_json` deserialization of the capture document (the only failure
point of the Rust function; a well-formed capture therefore always
reaches this code, which cannot fail). -/
def parseHar (entries : List HarEntry) (seedUrl : Option String) : ApiData :=
  assembleApi (seedInfo seedUrl) (parseHarState (seedInfo seedUrl).1 entries)

/-! Auth descriptor builder and refresh detector, from `auth/extractor.rs`. -/

/-- Refresh template (`RefreshConfig` in `types.rs`); `expiresIn` models the
`i64` read by `as_i64`. -/
structure RefreshConfig where
  endpoint : String
  method : String
  body : Option AList
  tokenPath : Option String
  expiresIn : Option Int
  deriving DecidableEq, Repr

/-- The portable auth descriptor (`AuthJson` in `types.rs`). -/
structure AuthJson where
  service : String
  baseUrl : String
  authMethod : String
  headers : Option AList
  cookies : Option AList
  context : Option AList
  refresh : Option RefreshConfig
  deriving DecidableEq, Repr

/-- The `context_patterns` array of `generate_auth_json`. -/
def contextPatterns : List String :=
  ["outletid", "userid", "supplierid", "companyid", "tenantid",
   "organizationid", "accountid", "workspaceid", "projectid"]

/-- Does the lowercased name contain one of `contextPatterns`?  This is the
context test applied by `generate_auth_json`. -/
def isContextName (name : String) : Bool :=
  contextPatterns.any (fun p => strContains (lowerStr name) p)

/-- Drop a literal leading `pat` from `s`; models
`strip_prefix(pat).unwrap_or(key)` at call sites where `starts_with pat`
already holds. -/
def dropPre (pat s : String) : String :=
  if startsWithS s pat then ⟨s.data.drop pat.data.length⟩ else s

/-- The `auth_cookie_patterns` array of `generate_auth_json`. -/
def authCookiePatterns : List String :=
  ["session", "token", "auth", "jwt", "access", "refresh",
   "csrf", "xsrf", "sid", "id_token"]

/-- Body of the first loop of `generate_auth_json`: route one auth-header
entry into the `headers` (non-context) or `context` accumulator. -/
def shcStep (hc : AList × AList) (kv : String × String) : AList × AList :=
  if isContextName kv.1 then (hc.1, upsert hc.2 kv.1 kv.2)
  else (upsert hc.1 kv.1 kv.2, hc.2)

/-- First loop of `generate_auth_json` as a fold of `shcStep` over the auth
headers, starting from two empty accumulators. -/
def splitHeadersContext (authHeaders : AList) : AList × AList :=
  authHeaders.foldl shcStep ([], [])

/-- Body of the second loop of `generate_auth_json`: recover a context
entry recorded under a `request_header_*` key of `auth_info`. -/
def cfaiStep (ctx : AList) (kv : String × String) : AList :=
  if startsWithS kv.1 "request_header_" then
    let headerName := dropPre "request_header_" kv.1
    if isContextName headerName then upsert ctx headerName kv.2 else ctx
  else ctx

/-- Second loop of `generate_auth_json`: recover context entries the
extractor recorded only under `request_header_*` keys of `auth_info`. -/
def contextFromAuthInfo (authInfo : AList) (context : AList) : AList :=
  authInfo.foldl cfaiStep context

/-- Mudra special case of `generate_auth_json`: the part of the `mudra`
header value before `--` becomes a `userId` context entry. -/
def mudraContext (authHeaders : AList) (context : AList) : AList :=
  match (lookup authHeaders "mudra").orElse (fun _ => lookup authHeaders "Mudra") with
  | some mudra =>
    match beforeFirst mudra "--" with
    | some userId => upsert context "userId" userId
    | none => context
  | none => context

/-- Embedding of `generate_auth_json` from `auth/extractor.rs`: separates
auth headers from context headers, recovers context entries recorded only
in `auth_info`, applies the Mudra special case, filters cookies to
auth-relevant names, and represents empty mappings as absent. -/
def generateAuthJson (service baseUrl authMethod : String)
    (authHeaders cookies authInfo : AList) : AuthJson :=
  let hc := splitHeadersContext authHeaders
  let headers := hc.1
  let context := mudraContext authHeaders (contextFromAuthInfo authInfo hc.2)
  let filteredCookies := cookies.filter (fun c =>
    authCookiePatterns.any (fun p => strContains (lowerStr c.1) p))
  { service := service, baseUrl := baseUrl, authMethod := authMethod
    headers := if headers.isEmpty then none else some headers
    cookies := if filteredCookies.isEmpty then none else some filteredCookies
    context := if context.isEmpty then none else some context
    refresh := none }

/-- Model of a parsed `serde_json::Value` as far as the refresh detector
reads it: objects with first-key-wins field access and integer numbers. -/
inductive Json where
  | str (s : String)
  | num (n : Int)
  | boolean (b : Bool)
  | null
  | arr (xs : List Json)
  | obj (fields : List (String × Json))

/-- Model of `Value::get(key)` on objects. -/
def jGet (j : Json) (k : String) : Option Json :=
  match j with
  | .obj fields => (fields.find? (fun f => f.1 == k)).map (·.2)
  | _ => none

/-- Model of `Value::as_i64`. -/
def jAsI64 (j : Json) : Option Int :=
  match j with
  | .num n => some n
  | _ => none

/-- The `refresh_url_patterns` array of `detect_refresh_endpoint`. -/
def refreshUrlPatterns : List String :=
  ["/oauth/token", "/oauth2/v1/token", "/oauth2/v2/token", "/oauth2/v3/token",
   "/oauth2/v4/token", "/auth/refresh", "/auth/token/refresh", "/token/refresh",
   "/refresh", "/api/auth/refresh", "/api/token/refresh",
   "/securetoken.googleapis.com", "/v1/token", "/v2/token"]

/-- Embedding of `detect_refresh_endpoint` from `auth/extractor.rs`.
`responseJson` models the result of `serde_json::from_str` on the response
body: `some j` when a body is present and parses to `j`, `none` when the
body is absent or unparsable (both cases take the same path in the
source). -/
def detectRefreshEndpoint (url method : String) (requestBody : Option String)
    (responseJson : Option Json) : Option RefreshConfig :=
  let urlLower := lowerStr url
  let isRefreshUrl := refreshUrlPatterns.any (fun p => strContains urlLower p)
  let hasRefreshGrant :=
    match requestBody with
    | some body =>
      let lower := lowerStr body
      strContains lower "grant_type=refresh_token"
        || strContains lower "\"grant_type\":\"refresh_token\""
        || strContains lower "refresh_token="
    | none => false
  if !isRefreshUrl && !hasRefreshGrant then none
  else
    let tokenExpiry : Option String × Option Int :=
      match responseJson with
      | some json =>
        let tokenPath :=
          if (jGet json "access_token").isSome then some "access_token"
          else if (jGet json "token").isSome then some "token"
          else if (jGet json "id_token").isSome then some "id_token"
          else none
        let expiresIn :=
          ((jGet json "expires_in").bind jAsI64).orElse
            (fun _ => (jGet json "expiresIn").bind jAsI64)
        (tokenPath, expiresIn)
      | none => (none, none)
    let bodyTemplate : Option AList :=
      match requestBody with
      | some body =>
        if strContains body "=" && !startsWithS body "\x7b" then
          some ((splitCharS '&' body).foldl
            (fun params pair =>
              match splitFirstS pair "=" with
              | some (key, value) =>
                let maskedValue :=
                  if strContains (lowerStr key) "token" then "$\x7brefreshToken\x7d"
                  else value
                upsert params key maskedValue
              | none => params) [])
        else none
      | none => none
    some { endpoint := url, method := method, body := bodyTemplate
           tokenPath := tokenExpiry.1, expiresIn := tokenExpiry.2 }

/-! A literal reading of the service-name sentence of the specification,
used to compare against the source's `derive_service_name`. -/

/-- Modelled from the spec sentence "strip one leading
`www.`/`api.`/`app.`/`m.` label": removes exactly one such leading label
when present. -/
def stripOneLeading (l : List Char) : List Char :=
  if isPre "www.".data l then l.drop 4
  else if isPre "api.".data l then l.drop 4
  else if isPre "app.".data l then l.drop 4
  else if isPre "m.".data l then l.drop 2
  else l

/-- Service-name derivation following the spec's words literally ("strip
one leading label"), sharing the TLD stripping and normalization with the
source embedding. -/
def deriveServiceNameOneLabel (domain : String) : String :=
  finishName (stripOneLeading domain.data)

/-! Shared lemmas about the association-list operations. -/

theorem lookup_upsert : ∀ (l : AList) (k v k' : String),
    lookup (upsert l k v) k' = if k' = k then some v else lookup l k'
  | [], k, v, k' => by
    by_cases h : k' = k
    · subst h; simp [upsert, lookup]
    · simp [upsert, lookup, h, Ne.symm h]
  | (k0, v0) :: t, k, v, k' => by
    by_cases h0 : k0 = k
    · subst h0
      by_cases h' : k' = k0
      · subst h'; simp [upsert, lookup]
      · simp [upsert, lookup, h', Ne.symm h']
    · by_cases h' : k' = k
      · subst h'
        have hne : k0 ≠ k' := h0
        simp [upsert, lookup, h0, hne, lookup_upsert t]
      · simp [upsert, lookup, h0, h', lookup_upsert t]

theorem lookup_orInsert : ∀ (l : AList) (k v k' : String),
    lookup (orInsert l k v) k' =
      if k' = k then some ((lookup l k).getD v) else lookup l k'
  | [], k, v, k' => by
    by_cases h : k' = k
    · subst h; simp [orInsert, lookup]
    · simp [orInsert, lookup, h, Ne.symm h]
  | (k0, v0) :: t, k, v, k' => by
    by_cases h0 : k0 = k
    · subst h0
      by_cases h' : k' = k0
      · subst h'; simp [orInsert, lookup]
      · simp [orInsert, lookup, h', Ne.symm h']
    · by_cases h' : k' = k
      · subst h'
        have hne : k0 ≠ k' := h0
        simp [orInsert, lookup, h0, hne, lookup_orInsert t]
      · simp [orInsert, lookup, h0, h', lookup_orInsert t]

theorem mem_keys_upsert : ∀ (l : AList) (k v k' : String),
    k' ∈ (upsert l k v).map Prod.fst → k' = k ∨ k' ∈ l.map Prod.fst
  | [], k, v, k' => by simp [upsert]
  | (k0, v0) :: t, k, v, k' => by
    by_cases h0 : k0 = k
    · subst h0; simp [upsert]
    · simp only [upsert, if_neg h0, List.map_cons, List.mem_cons]
      rintro (h | h)
      · exact Or.inr (Or.inl h)
      · rcases mem_keys_upsert t k v k' h with h' | h'
        · exact Or.inl h'
        · exact Or.inr (Or.inr h')

/-- Cancellation of a common string prefix, used to separate the tagged
`auth_info` keys. -/
theorem strAppend_left_cancel {p a b : String} (h : p ++ a = p ++ b) : a = b := by
  have hd := congrArg String.data h
  simp only [String.data_append] at hd
  cases a; cases b
  exact congrArg String.mk (List.append_cancel_left hd)

/-! Shared lemmas about `trimRep`. -/

theorem trimRepFuel_of_not {p t : List Char} (f : Nat) (h : isPre p t = false) :
    trimRepFuel f p t = t := by
  cases f with
  | zero => rfl
  | succ f => simp [trimRepFuel, h]

theorem trimRep_of_not {p t : List Char} (h : isPre p t = false) :
    trimRep p t = t :=
  trimRepFuel_of_not _ h

theorem trimRep_once {p t : List Char} (hp : p ≠ []) (h1 : isPre p t = true)
    (h2 : isPre p (t.drop p.length) = false) :
    trimRep p t = t.drop p.length := by
  cases p with
  | nil => exact absurd rfl hp
  | cons c ps =>
    cases t with
    | nil => simp [isPre] at h1
    | cons c' ts =>
      show trimRepFuel (ts.length + 1) (c :: ps) (c' :: ts) = _
      rw [trimRepFuel, if_neg (by simp), if_pos h1]
      exact trimRepFuel_of_not _ h2

/-! Machinery for tracking header and cookie occurrences through the
extraction folds. -/

/-- The value of the last occurrence in `hs` of a header whose lowercased
name is `n`, defaulting to `dflt` when there is none. -/
def lastHeaderValue (hs : List HarHeader) (n : String) (dflt : Option String) :
    Option String :=
  hs.foldl (fun acc h => if lowerStr h.name = n then some h.value else acc) dflt

/-- The value of the first occurrence in `hs` of a header whose lowercased
name is `n` and whose value is non-empty — unless `dflt` is already set,
which then prevails (the `or_insert` discipline). -/
def firstXHeaderValue (hs : List HarHeader) (n : String) (dflt : Option String) :
    Option String :=
  hs.foldl (fun acc h =>
    if acc.isSome then acc
    else if lowerStr h.name = n ∧ h.value ≠ "" then some h.value else acc) dflt

/-- The value of the last occurrence in `cs` of a cookie named exactly `n`,
defaulting to `dflt`. -/
def lastCookieValue (cs : List HarCookie) (n : String) (dflt : Option String) :
    Option String :=
  cs.foldl (fun acc c => if c.name = n then some c.value else acc) dflt

theorem headerStep_requests (st : ParseState) (h : HarHeader) :
    (headerStep st h).requests = st.requests := by
  simp only [headerStep]
  split_ifs <;> rfl

theorem cookieStep_requests (st : ParseState) (c : HarCookie) :
    (cookieStep st c).requests = st.requests := rfl

theorem setCookieStep_requests (st : ParseState) (h : HarHeader) :
    (setCookieStep st h).requests = st.requests := by
  simp only [setCookieStep]
  split_ifs <;> try rfl
  cases hsp : splitFirstS h.value "=" with
  | none => rfl
  | some p => simp only [hsp]; split_ifs <;> rfl

theorem headersFold_requests : ∀ (hs : List HarHeader) (st : ParseState),
    (headersFold st hs).requests = st.requests
  | [], _ => rfl
  | h :: t, st => by
    rw [headersFold, List.foldl_cons, ← headersFold, headersFold_requests t,
      headerStep_requests]

theorem cookiesFold_requests : ∀ (cs : List HarCookie) (st : ParseState),
    (cookiesFold st cs).requests = st.requests
  | [], _ => rfl
  | c :: t, st => by
    rw [cookiesFold, List.foldl_cons, ← cookiesFold, cookiesFold_requests t,
      cookieStep_requests]

theorem setCookieFold_requests : ∀ (hs : List HarHeader) (st : ParseState),
    (hs.foldl setCookieStep st).requests = st.requests
  | [], _ => rfl
  | h :: t, st => by
    rw [List.foldl_cons, setCookieFold_requests t, setCookieStep_requests]

theorem headerStep_authHeaders_ne (st : ParseState) (h : HarHeader) (n : String)
    (hne : lowerStr h.name ≠ n) :
    lookup (headerStep st h).authHeaders n = lookup st.authHeaders n := by
  have hcond : ¬(n = lowerStr h.name) := fun hc => hne hc.symm
  simp only [headerStep]
  split_ifs <;> simp [lookup_upsert, hcond]

theorem headerStep_authHeaders_eq (st : ParseState) (h : HarHeader) (n : String)
    (heq : lowerStr h.name = n) (hps : startsWithS n ":" = false)
    (ha : isAuthLikeHeader n = true) :
    lookup (headerStep st h).authHeaders n = some h.value := by
  simp only [headerStep, heq, isHttp2PseudoHeader, hps, ha]
  split_ifs <;> simp_all [lookup_upsert, lookup_orInsert]

theorem headerStep_authInfo_ne (st : ParseState) (h : HarHeader) (n : String)
    (hne : lowerStr h.name ≠ n) :
    lookup (headerStep st h).authInfo ("request_header_" ++ n)
      = lookup st.authInfo ("request_header_" ++ n) := by
  have hkey : ¬("request_header_" ++ n = "request_header_" ++ lowerStr h.name) :=
    fun hc => hne (strAppend_left_cancel hc).symm
  simp only [headerStep]
  split_ifs <;> simp [lookup_upsert, lookup_orInsert, hkey]

theorem headerStep_authInfo_capture (st : ParseState) (h : HarHeader) (n : String)
    (heq : lowerStr h.name = n) (hps : startsWithS n ":" = false)
    (hcap : isAuthLikeHeader n = true ∨ CONTEXT_HEADER_NAMES.contains n = true) :
    lookup (headerStep st h).authInfo ("request_header_" ++ n) = some h.value := by
  simp only [headerStep, heq, isHttp2PseudoHeader, hps]
  rcases hcap with ha | hcx
  · simp only [ha]
    split_ifs <;> simp_all [lookup_upsert, lookup_orInsert]
  · simp only [hcx]
    split_ifs <;> simp_all [lookup_upsert, lookup_orInsert]

theorem headerStep_authInfo_xfirst (st : ParseState) (h : HarHeader) (n : String)
    (heq : lowerStr h.name = n) (hps : startsWithS n ":" = false)
    (ha : isAuthLikeHeader n = false) (hcx : CONTEXT_HEADER_NAMES.contains n = false)
    (hx : startsWithS n "x-" = true) (hstd : isStandardHeader n = false) :
    lookup (headerStep st h).authInfo ("request_header_" ++ n)
      = if (lookup st.authInfo ("request_header_" ++ n)).isSome then
          lookup st.authInfo ("request_header_" ++ n)
        else if h.value = "" then none
        else some h.value := by
  simp only [headerStep, heq, isHttp2PseudoHeader, hps, ha, hcx, hx, hstd]
  by_cases hv : h.value = ""
  · simp only [hv]
    split_ifs <;> cases hk : lookup st.authInfo ("request_header_" ++ n) <;>
      simp_all [lookup_orInsert]
  · simp only [hv]
    split_ifs <;> cases hk : lookup st.authInfo ("request_header_" ++ n) <;>
      simp_all [lookup_orInsert]

theorem cookieStep_cookies_lookup (st : ParseState) (c : HarCookie) (n : String) :
    lookup (cookieStep st c).cookies n =
      if c.name = n then some c.value else lookup st.cookies n := by
  by_cases h : c.name = n
  · simp [cookieStep, lookup_upsert, h]
  · simp [cookieStep, lookup_upsert, h, Ne.symm h]

theorem cookieStep_authInfo_lookup (st : ParseState) (c : HarCookie) (n : String) :
    lookup (cookieStep st c).authInfo ("request_cookie_" ++ n) =
      if c.name = n then some c.value
      else lookup st.authInfo ("request_cookie_" ++ n) := by
  by_cases h : c.name = n
  · simp [cookieStep, lookup_upsert, h]
  · have hkey : ¬("request_cookie_" ++ n = "request_cookie_" ++ c.name) :=
      fun hc => h (strAppend_left_cancel hc).symm
    simp [cookieStep, lookup_upsert, h, hkey]

theorem cookiesFold_cookies_lookup :
    ∀ (cs : List HarCookie) (st : ParseState) (n : String),
    lookup (cookiesFold st cs).cookies n = lastCookieValue cs n (lookup st.cookies n)
  | [], _, _ => rfl
  | c :: t, st, n => by
    show lookup (cookiesFold (cookieStep st c) t).cookies n = _
    rw [cookiesFold_cookies_lookup t, cookieStep_cookies_lookup]
    rfl

theorem cookiesFold_authInfo_lookup :
    ∀ (cs : List HarCookie) (st : ParseState) (n : String),
    lookup (cookiesFold st cs).authInfo ("request_cookie_" ++ n)
      = lastCookieValue cs n (lookup st.authInfo ("request_cookie_" ++ n))
  | [], _, _ => rfl
  | c :: t, st, n => by
    show lookup (cookiesFold (cookieStep st c) t).authInfo ("request_cookie_" ++ n) = _
    rw [cookiesFold_authInfo_lookup t, cookieStep_authInfo_lookup]
    rfl

theorem headersFold_authHeaders_lookup (n : String) (hps : startsWithS n ":" = false)
    (ha : isAuthLikeHeader n = true) :
    ∀ (hs : List HarHeader) (st : ParseState),
    lookup (headersFold st hs).authHeaders n
      = lastHeaderValue hs n (lookup st.authHeaders n)
  | [], _ => rfl
  | h :: t, st => by
    show lookup (headersFold (headerStep st h) t).authHeaders n = _
    rw [headersFold_authHeaders_lookup n hps ha t]
    have hexp : lastHeaderValue (h :: t) n (lookup st.authHeaders n)
        = lastHeaderValue t n
            (if lowerStr h.name = n then some h.value else lookup st.authHeaders n) := rfl
    rw [hexp]
    by_cases hn : lowerStr h.name = n
    · rw [headerStep_authHeaders_eq st h n hn hps ha, if_pos hn]
    · rw [headerStep_authHeaders_ne st h n hn, if_neg hn]

theorem headersFold_authInfo_capture (n : String) (hps : startsWithS n ":" = false)
    (hcap : isAuthLikeHeader n = true ∨ CONTEXT_HEADER_NAMES.contains n = true) :
    ∀ (hs : List HarHeader) (st : ParseState),
    lookup (headersFold st hs).authInfo ("request_header_" ++ n)
      = lastHeaderValue hs n (lookup st.authInfo ("request_header_" ++ n))
  | [], _ => rfl
  | h :: t, st => by
    show lookup (headersFold (headerStep st h) t).authInfo ("request_header_" ++ n) = _
    rw [headersFold_authInfo_capture n hps hcap t]
    have hexp : lastHeaderValue (h :: t) n (lookup st.authInfo ("request_header_" ++ n))
        = lastHeaderValue t n
            (if lowerStr h.name = n then some h.value
             else lookup st.authInfo ("request_header_" ++ n)) := rfl
    rw [hexp]
    by_cases hn : lowerStr h.name = n
    · rw [headerStep_authInfo_capture st h n hn hps hcap, if_pos hn]
    · rw [headerStep_authInfo_ne st h n hn, if_neg hn]

theorem headersFold_authInfo_xfirst (n : String) (hps : startsWithS n ":" = false)
    (ha : isAuthLikeHeader n = false) (hcx : CONTEXT_HEADER_NAMES.contains n = false)
    (hx : startsWithS n "x-" = true) (hstd : isStandardHeader n = false) :
    ∀ (hs : List HarHeader) (st : ParseState),
    lookup (headersFold st hs).authInfo ("request_header_" ++ n)
      = firstXHeaderValue hs n (lookup st.authInfo ("request_header_" ++ n))
  | [], _ => rfl
  | h :: t, st => by
    show lookup (headersFold (headerStep st h) t).authInfo ("request_header_" ++ n) = _
    rw [headersFold_authInfo_xfirst n hps ha hcx hx hstd t]
    have hexp : firstXHeaderValue (h :: t) n (lookup st.authInfo ("request_header_" ++ n))
        = firstXHeaderValue t n
            (if (lookup st.authInfo ("request_header_" ++ n)).isSome then
               lookup st.authInfo ("request_header_" ++ n)
             else if lowerStr h.name = n ∧ h.value ≠ "" then some h.value
             else lookup st.authInfo ("request_header_" ++ n)) := rfl
    rw [hexp]
    by_cases hn : lowerStr h.name = n
    · rw [headerStep_authInfo_xfirst st h n hn hps ha hcx hx hstd]
      cases hk : lookup st.authInfo ("request_header_" ++ n) <;>
        by_cases hv : h.value = "" <;> simp [hn, hv]
    · rw [headerStep_authInfo_ne st h n hn]
      cases hk : lookup st.authInfo ("request_header_" ++ n) <;> simp [hn]

/-! Key invariants of the descriptor builder, used for the disjointness of
`headers` and `context`. -/

/-- Key list of an optional mapping (absent mappings have no keys). -/
def optKeys : Option AList → List String
  | none => []
  | some l => l.map Prod.fst

theorem shcFold_inv : ∀ (l : AList) (acc : AList × AList),
    (∀ k ∈ acc.1.map Prod.fst, isContextName k = false) →
    (∀ k ∈ acc.2.map Prod.fst, isContextName k = true) →
    (∀ k ∈ (l.foldl shcStep acc).1.map Prod.fst, isContextName k = false)
    ∧ (∀ k ∈ (l.foldl shcStep acc).2.map Prod.fst, isContextName k = true)
  | [], acc, h1, h2 => ⟨h1, h2⟩
  | kv :: t, acc, h1, h2 => by
    rw [List.foldl_cons]
    apply shcFold_inv t
    · intro k hk
      unfold shcStep at hk
      by_cases hc : isContextName kv.1 = true
      · simpa [hc] using h1 k (by simpa [hc] using hk)
      · simp only [Bool.not_eq_true] at hc
        simp only [shcStep, hc, if_neg, Bool.false_eq_true] at hk
        rcases mem_keys_upsert _ _ _ _ hk with h | h
        · subst h; exact hc
        · exact h1 k h
    · intro k hk
      by_cases hc : isContextName kv.1 = true
      · simp only [shcStep, hc, if_true] at hk
        rcases mem_keys_upsert _ _ _ _ hk with h | h
        · subst h; exact hc
        · exact h2 k h
      · simp only [Bool.not_eq_true] at hc
        simp only [shcStep, hc, Bool.false_eq_true, if_neg] at hk
        exact h2 k (by simpa using hk)

theorem cfaiFold_inv : ∀ (l : AList) (ctx : AList),
    (∀ k ∈ ctx.map Prod.fst, isContextName k = true) →
    ∀ k ∈ (l.foldl cfaiStep ctx).map Prod.fst, isContextName k = true
  | [], ctx, h => h
  | kv :: t, ctx, h => by
    rw [List.foldl_cons]
    apply cfaiFold_inv t
    intro k hk
    unfold cfaiStep at hk
    by_cases h1 : startsWithS kv.1 "request_header_" = true
    · simp only [h1, if_true] at hk
      by_cases h2 : isContextName (dropPre "request_header_" kv.1) = true
      · simp only [h2, if_true] at hk
        rcases mem_keys_upsert _ _ _ _ hk with h' | h'
        · subst h'; exact h2
        · exact h k h'
      · simp only [Bool.not_eq_true] at h2
        simp only [h2, Bool.false_eq_true, if_neg] at hk
        exact h k (by simpa using hk)
    · simp only [Bool.not_eq_true] at h1
      simp only [h1, Bool.false_eq_true, if_neg] at hk
      exact h k (by simpa using hk)

theorem mudraContext_inv (authHeaders ctx : AList)
    (h : ∀ k ∈ ctx.map Prod.fst, isContextName k = true) :
    ∀ k ∈ (mudraContext authHeaders ctx).map Prod.fst, isContextName k = true := by
  intro k hk
  unfold mudraContext at hk
  rcases hm : (lookup authHeaders "mudra").orElse (fun _ => lookup authHeaders "Mudra")
    with _ | mudra
  · rw [hm] at hk; exact h k hk
  · rw [hm] at hk
    have hk2 : k ∈ List.map Prod.fst
        (match beforeFirst mudra "--" with
         | some userId => upsert ctx "userId" userId
         | none => ctx) := hk
    rcases hb : beforeFirst mudra "--" with _ | userId
    · rw [hb] at hk2; exact h k hk2
    · rw [hb] at hk2
      rcases mem_keys_upsert _ _ _ _ hk2 with h' | h'
      · subst h'; decide
      · exact h k h'

/-! Claim theorems. -/

/-- C3: for the empty exchange list and no seed URL, `parse_har` succeeds
and returns `requests = []`, `service = "unknown-api"`,
`baseUrl = "https://api.example.com"`, and an empty auth-header mapping. -/
theorem claim_c3_empty :
    (parseHar [] none).requests = []
    ∧ (parseHar [] none).service = "unknown-api"
    ∧ (parseHar [] none).baseUrl = "https://api.example.com"
    ∧ (parseHar [] none).authHeaders = [] := by decide

/-- C6: whenever some value of the auth-header mapping starts with
`bearer ` case-insensitively, the auth-method classifier returns exactly
`Bearer Token`, regardless of which other headers or cookies are present:
the Bearer rule precedes every other rule. -/
theorem claim_c6_bearer (authHeaders cookies : AList)
    (hb : authHeaders.any (fun p => startsWithS (lowerStr p.2) "bearer ") = true) :
    guessAuthMethod authHeaders cookies = "Bearer Token" := by
  unfold guessAuthMethod
  have h : (authHeaders.map (fun p => p.2)).any
      (fun v => startsWithS (lowerStr v) "bearer ") = true := by
    rw [List.any_eq_true] at hb ⊢
    obtain ⟨p, hp, hps⟩ := hb
    exact ⟨p.2, List.mem_map_of_mem _ hp, hps⟩
  simp [h]

/-- Witness for C6 at the spec's example: the map with the single header
`authorization: Bearer abc.def.ghi` classifies as `Bearer Token`. -/
theorem claim_c6_bearer_witness :
    guessAuthMethod [("authorization", "Bearer abc.def.ghi")] [] = "Bearer Token" :=
  claim_c6_bearer [("authorization", "Bearer abc.def.ghi")] [] (by decide)

/-- C1 (refuting determinism as implemented): the auth-method label is not
a function of the auth-header map contents alone.  The two lists below are
permutations of each other — the same `HashMap` contents — yet the
classifier labels them differently, because the source reads
`auth_headers.keys()` in `HashMap` iteration order, which Rust randomizes
per map instance; the order of `baseUrls` collected from a `HashSet` is
unspecified in the same way. -/
theorem claim_c1_order_dependent :
    ([(("x-api-key" : String), ("k1" : String)), ("apikey", "k2")]).Perm
        [("apikey", "k2"), ("x-api-key", "k1")]
    ∧ guessAuthMethod [("x-api-key", "k1"), ("apikey", "k2")] [] = "API Key (x-api-key)"
    ∧ guessAuthMethod [("apikey", "k2"), ("x-api-key", "k1")] [] = "API Key (apikey)"
    ∧ guessAuthMethod [("x-api-key", "k1"), ("apikey", "k2")] []
        ≠ guessAuthMethod [("apikey", "k2"), ("x-api-key", "k1")] [] := by
  refine ⟨by decide, by decide, by decide, by decide⟩

/-- Exchange used by C2 and C10: a JSON GET to `api.example.com` whose
request carries the header `X-Tenant-Id` with the given value. -/
def tenantEntry (v : String) : HarEntry :=
  { request := { method := "GET", url := "https://api.example.com/v1/users"
                 headers := [{ name := "X-Tenant-Id", value := v }]
                 cookies := none, postData := none }
    response := { status := 200
                  headers := [{ name := "content-type", value := "application/json" }]
                  content := none } }

/-- The descriptor the pipeline produces for a capture consisting of one
`tenantEntry`. -/
def tenantDescriptor (v : String) : AuthJson :=
  let d := parseHar [tenantEntry v] none
  generateAuthJson d.service d.baseUrl d.authMethod d.authHeaders d.cookies d.authInfo

/-- C2 (code bug): the accepted exchange carries `X-Tenant-Id: 42` (it is
recorded in `authInfo`), and the header indeed never reaches the
descriptor's `headers` — but it does not reach `context` either: the
descriptor has no context mapping at all, because `generate_auth_json`'s
`context_patterns` contain `tenantid` while the recovered header name is
the hyphenated `x-tenant-id`, which matches no pattern. -/
theorem claim_c2_tenant_dropped :
    (parseHar [tenantEntry "42"] none).requests.length = 1
    ∧ lookup (parseHar [tenantEntry "42"] none).authInfo "request_header_x-tenant-id"
        = some "42"
    ∧ (parseHar [tenantEntry "42"] none).authHeaders = []
    ∧ (tenantDescriptor "42").headers = none
    ∧ (tenantDescriptor "42").context = none := by decide

theorem generateAuthJson_headers (service baseUrl authMethod : String)
    (authHeaders cookies authInfo : AList) :
    (generateAuthJson service baseUrl authMethod authHeaders cookies authInfo).headers
      = if (splitHeadersContext authHeaders).1.isEmpty then none
        else some (splitHeadersContext authHeaders).1 := rfl

theorem generateAuthJson_context (service baseUrl authMethod : String)
    (authHeaders cookies authInfo : AList) :
    (generateAuthJson service baseUrl authMethod authHeaders cookies authInfo).context
      = if (mudraContext authHeaders
            (contextFromAuthInfo authInfo (splitHeadersContext authHeaders).2)).isEmpty
        then none
        else some (mudraContext authHeaders
            (contextFromAuthInfo authInfo (splitHeadersContext authHeaders).2)) := rfl

/-- C9: for every input to the descriptor builder, the `headers` and
`context` mappings of the resulting descriptor have disjoint key sets:
every `headers` key fails the context-pattern test while every `context`
key passes it. -/
theorem claim_c9_disjoint (service baseUrl authMethod : String)
    (authHeaders cookies authInfo : AList) (k : String)
    (hk : k ∈ optKeys (generateAuthJson service baseUrl authMethod
        authHeaders cookies authInfo).headers) :
    k ∉ optKeys (generateAuthJson service baseUrl authMethod
        authHeaders cookies authInfo).context := by
  intro hk2
  rw [generateAuthJson_headers] at hk
  rw [generateAuthJson_context] at hk2
  have hH := (shcFold_inv authHeaders ([], []) (by simp) (by simp)).1
  have hC := mudraContext_inv authHeaders _
    (cfaiFold_inv authInfo _ (shcFold_inv authHeaders ([], []) (by simp) (by simp)).2)
  by_cases h1 : (splitHeadersContext authHeaders).1.isEmpty
  · rw [if_pos h1] at hk
    simp [optKeys] at hk
  · rw [if_neg h1] at hk
    by_cases h2 : (mudraContext authHeaders
        (contextFromAuthInfo authInfo (splitHeadersContext authHeaders).2)).isEmpty
    · rw [if_pos h2] at hk2
      simp [optKeys] at hk2
    · rw [if_neg h2] at hk2
      have hfalse := hH k (by simpa [optKeys] using hk)
      have htrue := hC k (by simpa [optKeys, splitHeadersContext, contextFromAuthInfo]
        using hk2)
      rw [hfalse] at htrue
      exact Bool.noConfusion htrue

/-- Witness for C9: with auth headers `authorization` and `userid`, the
key `authorization` lands in `headers` and is absent from `context`. -/
theorem claim_c9_disjoint_witness :
    "authorization" ∉ optKeys (generateAuthJson "svc" "https://api.x.com" "Bearer Token"
        [("authorization", "tok"), ("userid", "7")] [] []).context :=
  claim_c9_disjoint "svc" "https://api.x.com" "Bearer Token"
    [("authorization", "tok"), ("userid", "7")] [] [] "authorization" (by decide)

/-- C10 (amended): across the extraction folds, `authHeaders` entries for
auth-like names, `request_header_*` auth-info entries for auth-like or
context-listed names, the cookie mapping, and `request_cookie_*` auth-info
entries all hold the value of the last occurrence (overwriting insert),
while `request_header_*` entries for non-standard `x-` headers that are
neither auth-like nor context-listed hold the first non-empty occurrence
(`or_insert`). -/
theorem claim_c10_amended (st : ParseState) (hs : List HarHeader)
    (cs : List HarCookie) (n cn : String) (hps : startsWithS n ":" = false) :
    (isAuthLikeHeader n = true →
      lookup (headersFold st hs).authHeaders n
          = lastHeaderValue hs n (lookup st.authHeaders n)
        ∧ lookup (headersFold st hs).authInfo ("request_header_" ++ n)
          = lastHeaderValue hs n (lookup st.authInfo ("request_header_" ++ n)))
    ∧ (CONTEXT_HEADER_NAMES.contains n = true →
      lookup (headersFold st hs).authInfo ("request_header_" ++ n)
          = lastHeaderValue hs n (lookup st.authInfo ("request_header_" ++ n)))
    ∧ (isAuthLikeHeader n = false → CONTEXT_HEADER_NAMES.contains n = false →
        startsWithS n "x-" = true → isStandardHeader n = false →
      lookup (headersFold st hs).authInfo ("request_header_" ++ n)
          = firstXHeaderValue hs n (lookup st.authInfo ("request_header_" ++ n)))
    ∧ lookup (cookiesFold st cs).cookies cn
        = lastCookieValue cs cn (lookup st.cookies cn)
    ∧ lookup (cookiesFold st cs).authInfo ("request_cookie_" ++ cn)
        = lastCookieValue cs cn (lookup st.authInfo ("request_cookie_" ++ cn)) :=
  ⟨fun ha => ⟨headersFold_authHeaders_lookup n hps ha hs st,
      headersFold_authInfo_capture n hps (Or.inl ha) hs st⟩,
    fun hcx => headersFold_authInfo_capture n hps (Or.inr hcx) hs st,
    fun ha hcx hx hstd => headersFold_authInfo_xfirst n hps ha hcx hx hstd hs st,
    cookiesFold_cookies_lookup cs st cn,
    cookiesFold_authInfo_lookup cs st cn⟩

/-- Witness for C10 at a concrete repeated auth-like header: of two
`authorization` occurrences, the second one's value is retained. -/
theorem claim_c10_amended_witness :
    lookup (headersFold initState
        [{ name := "Authorization", value := "t1" },
         { name := "authorization", value := "t2" }]).authHeaders "authorization"
      = some "t2" := by
  have h := (claim_c10_amended initState
      [{ name := "Authorization", value := "t1" },
       { name := "authorization", value := "t2" }]
      [] "authorization" "cookie" (by decide)).1 (by decide)
  rw [h.1]
  decide

/-- C10 counterexample: `x-tenant-id` is a non-standard `x-` header that is
not auth-like, yet after two accepted exchanges carrying values `1` then
`2` the pipeline's `authInfo` holds the LAST value `2` (the claim's
first-occurrence exception does not apply to context-listed names, whose
entries are overwritten on every occurrence). -/
theorem claim_c10_counterexample :
    startsWithS "x-tenant-id" "x-" = true
    ∧ isStandardHeader "x-tenant-id" = false
    ∧ isAuthLikeHeader "x-tenant-id" = false
    ∧ lookup (parseHar [tenantEntry "1", tenantEntry "2"] none).authInfo
        "request_header_x-tenant-id" = some "2" := by decide

theorem trimRep_once_len {p t : List Char} {k : Nat} (hp : p ≠ [])
    (hk : p.length = k) (h1 : isPre p t = true)
    (h2 : isPre p (t.drop k) = false) :
    trimRep p t = t.drop k := by
  subst hk
  exact trimRep_once hp h1 h2

/-- C7 counterexample: on `www.www.stripe.com` the source strips BOTH
leading `www.` labels (Rust `trim_start_matches` strips repeatedly) and
yields `stripe`, while the claim's "strip one leading label" yields
`www-stripe`. -/
theorem claim_c7_counterexample :
    deriveServiceName "www.www.stripe.com" = "stripe"
    ∧ deriveServiceNameOneLabel "www.www.stripe.com" = "www-stripe"
    ∧ deriveServiceName "www.www.stripe.com"
        ≠ deriveServiceNameOneLabel "www.www.stripe.com" := by
  refine ⟨by decide, by decide, by decide⟩

/-- C7 (amended): the derivation strips the leading markers `www.`, `api.`,
`app.`, `m.` repeatedly and in that order (not exactly once); whenever the
remainder after one strip carries no further marker, this agrees with the
one-label reading, and the three spec examples hold. -/
theorem claim_c7_amended :
    (∀ d : String,
      isPre "www.".data (stripOneLeading d.data) = false →
      isPre "api.".data (stripOneLeading d.data) = false →
      isPre "app.".data (stripOneLeading d.data) = false →
      isPre "m.".data (stripOneLeading d.data) = false →
      deriveServiceName d = deriveServiceNameOneLabel d)
    ∧ deriveServiceName "api.github.com" = "github"
    ∧ deriveServiceName "www.stripe.com" = "stripe"
    ∧ deriveServiceName "app.linear.app" = "linear" := by
  refine ⟨?_, by decide, by decide, by decide⟩
  intro d h1 h2 h3 h4
  unfold deriveServiceName deriveServiceNameOneLabel
  congr 1
  unfold stripOneLeading at h1 h2 h3 h4 ⊢
  cases hww : isPre "www.".data d.data with
  | true =>
    simp only [hww, if_true] at h1 h2 h3 h4 ⊢
    rw [trimRep_once_len (by decide) (by decide) hww h1,
      trimRep_of_not h2, trimRep_of_not h3, trimRep_of_not h4]
  | false =>
    simp only [hww, Bool.false_eq_true, if_false] at h1 h2 h3 h4 ⊢
    cases hapi : isPre "api.".data d.data with
    | true =>
      simp only [hapi, if_true] at h1 h2 h3 h4 ⊢
      rw [trimRep_of_not hww, trimRep_once_len (by decide) (by decide) hapi h2,
        trimRep_of_not h3, trimRep_of_not h4]
    | false =>
      simp only [hapi, Bool.false_eq_true, if_false] at h1 h2 h3 h4 ⊢
      cases happ : isPre "app.".data d.data with
      | true =>
        simp only [happ, if_true] at h1 h2 h3 h4 ⊢
        rw [trimRep_of_not hww, trimRep_of_not hapi,
          trimRep_once_len (by decide) (by decide) happ h3, trimRep_of_not h4]
      | false =>
        simp only [happ, Bool.false_eq_true, if_false] at h1 h2 h3 h4 ⊢
        cases hm : isPre "m.".data d.data with
        | true =>
          simp only [hm, if_true] at h1 h2 h3 h4 ⊢
          rw [trimRep_of_not hww, trimRep_of_not hapi, trimRep_of_not happ,
            trimRep_once_len (by decide) (by decide) hm h4]
        | false =>
          simp only [hm, Bool.false_eq_true, if_false] at h1 h2 h3 h4 ⊢
          rw [trimRep_of_not hww, trimRep_of_not hapi, trimRep_of_not happ,
            trimRep_of_not hm]

/-- Witness for C7 at a domain with a single marker label. -/
theorem claim_c7_amended_witness :
    deriveServiceName "api.example.io" = deriveServiceNameOneLabel "api.example.io" :=
  claim_c7_amended.1 "api.example.io" (by decide) (by decide) (by decide) (by decide)

theorem entryStep_badUrl (seedDomain : Option String) (st : ParseState) (e : HarEntry)
    (h : parseUrl e.request.url = none
      ∨ ∃ u, parseUrl e.request.url = some u ∧ u.host = none) :
    entryStep seedDomain st e = st := by
  unfold entryStep
  rcases h with h | ⟨u, hu, hh⟩
  · have hsa : isStaticAsset e.request.url = false := by
      unfold isStaticAsset
      rw [h]
    simp [hsa, h]
  · cases hsa : isStaticAsset e.request.url with
    | true => simp [hsa]
    | false => simp [hsa, hu, hh]

/-- C8: an individual exchange whose URL fails to parse, or parses without
a host, never makes `parse_har` fail: the result on any capture containing
it equals the result on the capture with it removed, so the exchange
contributes nothing to any output component. -/
theorem claim_c8_badurl_harmless (pre post : List HarEntry) (seed : Option String)
    (e : HarEntry)
    (h : parseUrl e.request.url = none
      ∨ ∃ u, parseUrl e.request.url = some u ∧ u.host = none) :
    parseHar (pre ++ e :: post) seed = parseHar (pre ++ post) seed := by
  unfold parseHar parseHarState
  rw [List.foldl_append, List.foldl_append, List.foldl_cons,
    entryStep_badUrl _ _ _ h]

/-- Entry with an unparsable URL, used by the C8 witness. -/
def badUrlEntry : HarEntry :=
  { request := { method := "GET", url := "not a url"
                 headers := [{ name := "Authorization", value := "Bearer zzz" }]
                 cookies := none, postData := none }
    response := { status := 0, headers := [], content := none } }

/-- Witness for C8: prepending the unparsable-URL exchange to a one-entry
capture leaves the entire `parse_har` output unchanged. -/
theorem claim_c8_badurl_harmless_witness :
    parseHar [badUrlEntry, tenantEntry "42"] none = parseHar [tenantEntry "42"] none :=
  claim_c8_badurl_harmless [] [tenantEntry "42"] none badUrlEntry (Or.inl (by decide))

theorem acceptEntry_requests_len (st : ParseState) (e : HarEntry) (parsed : UrlParts)
    (domain : String) :
    (acceptEntry st e parsed domain).requests.length = st.requests.length + 1 := by
  unfold acceptEntry
  cases hc : e.request.cookies with
  | none =>
    simp [hc, setCookieFold_requests, headersFold_requests]
  | some cs =>
    simp [hc, setCookieFold_requests, cookiesFold_requests, headersFold_requests]

theorem acceptEntry_ne (st : ParseState) (e : HarEntry) (parsed : UrlParts)
    (domain : String) : acceptEntry st e parsed domain ≠ st := by
  intro h
  have h2 := acceptEntry_requests_len st e parsed domain
  rw [h] at h2
  omega

/-- The seed-relatedness test of the relevance filter: does the domain
share a registrable root (last two dot-separated labels) with the seed
host, when a seed URL was supplied? -/
def seedRelated (seedDomain : Option String) (d : String) : Bool :=
  match seedDomain with
  | some sd => isSameRootDomain d sd
  | none => false

/-- C5: for an exchange surviving filter steps 1-4, the entry step leaves
the state unchanged (drops the exchange) exactly when the exchange is not
API-like AND the running target-domain set is non-empty AND its domain is
neither in that set nor sharing a registrable root with the seed host; in
particular, while the target-domain set is empty the exchange is always
accepted. -/
theorem claim_c5_filter (seedDomain : Option String) (st : ParseState) (e : HarEntry)
    (u : UrlParts) (d : String)
    (h1 : isStaticAsset e.request.url = false)
    (h2 : parseUrl e.request.url = some u)
    (h3 : u.host = some d)
    (h4 : isSkippedDomain d = false)
    (h5 : (e.request.method == "GET"
        && ((getResponseContentType e).map isHtmlContentType).getD false) = false) :
    (entryStep seedDomain st e = st ↔
      (isApiLike e.request.url e.request.method d (getResponseContentType e) = false
        ∧ st.targetDomains ≠ []
        ∧ st.targetDomains.contains d = false
        ∧ seedRelated seedDomain d = false))
    ∧ (st.targetDomains = [] → entryStep seedDomain st e ≠ st) := by
  have hchar : entryStep seedDomain st e =
      if !isApiLike e.request.url e.request.method d (getResponseContentType e)
          && !st.targetDomains.isEmpty
          && !(st.targetDomains.contains d || seedRelated seedDomain d) then st
      else acceptEntry st e u d := by
    unfold entryStep seedRelated
    simp only [h1, Bool.false_eq_true, if_false, h2, h3, h4, h5]
  rw [hchar]
  clear hchar
  by_cases hcond : (!isApiLike e.request.url e.request.method d (getResponseContentType e)
      && !st.targetDomains.isEmpty
      && !(st.targetDomains.contains d || seedRelated seedDomain d)) = true
  · rw [if_pos hcond]
    have hdec := hcond
    simp only [Bool.and_eq_true, Bool.not_eq_true'] at hdec
    obtain ⟨⟨hapi, hemp⟩, htd⟩ := hdec
    rw [Bool.or_eq_false_iff] at htd
    constructor
    · constructor
      · intro _
        refine ⟨hapi, ?_, htd.1, htd.2⟩
        intro hnil
        rw [hnil] at hemp
        simp at hemp
      · intro _; rfl
    · intro hnil
      rw [hnil] at hemp
      simp at hemp
  · rw [if_neg hcond]
    constructor
    · constructor
      · intro heq
        exact absurd heq (acceptEntry_ne _ _ _ _)
      · rintro ⟨hapi, hne, hcont, hseed⟩
        exfalso
        apply hcond
        have hemp : st.targetDomains.isEmpty = false := by
          cases hl : st.targetDomains with
          | nil => exact absurd hl hne
          | cons a t => rfl
        rw [hapi, hcont, hseed, hemp]
        rfl
    · intro _ heq
      exact absurd heq (acceptEntry_ne _ _ _ _)

/-- Exchange used by the C5 witness: a GET to `example.org` that is not
API-like, accepted because the target-domain set is still empty. -/
def plainEntry : HarEntry :=
  { request := { method := "GET", url := "https://example.org/page2"
                 headers := [], cookies := none, postData := none }
    response := { status := 200
                  headers := [{ name := "content-type", value := "text/plain" }]
                  content := none } }

/-- Witness for C5: on the empty initial state, the non-API-like exchange
is accepted (the step changes the state). -/
theorem claim_c5_filter_witness :
    entryStep none initState plainEntry ≠ initState :=
  (claim_c5_filter none initState plainEntry
    { scheme := "https", host := some "example.org", path := "/page2" } "example.org"
    (by decide) (by decide) (by decide) (by decide) (by decide)).2 rfl

/-- C4: for a POST to a URL containing `/oauth/token` with the form body
`grant_type=refresh_token&refresh_token=XYZ&client_id=abc` and JSON
response `{"access_token": "new", "expires_in": 3600}`, refresh detection
returns a config with that endpoint, method POST, a body template keeping
`grant_type` and `client_id` verbatim and masking `refresh_token` with the
placeholder, token path `access_token`, and expiry 3600. -/
theorem claim_c4_refresh (url : String)
    (hurl : strContains (lowerStr url) "/oauth/token" = true) :
    detectRefreshEndpoint url "POST"
      (some "grant_type=refresh_token&refresh_token=XYZ&client_id=abc")
      (some (Json.obj [("access_token", Json.str "new"), ("expires_in", Json.num 3600)]))
    = some { endpoint := url, method := "POST"
             body := some [("grant_type", "refresh_token"),
                           ("refresh_token", "$\x7brefreshToken\x7d"),
                           ("client_id", "abc")]
             tokenPath := some "access_token", expiresIn := some 3600 } := by
  unfold detectRefreshEndpoint
  have hru : refreshUrlPatterns.any (fun p => strContains (lowerStr url) p) = true := by
    rw [List.any_eq_true]
    exact ⟨"/oauth/token", by decide, hurl⟩
  simp only [hru, Bool.not_true, Bool.false_and, Bool.false_eq_true, if_false]
  rfl

/-- Witness for C4 at the concrete endpoint `https://auth.example.com/oauth/token`. -/
theorem claim_c4_refresh_witness :
    detectRefreshEndpoint "https://auth.example.com/oauth/token" "POST"
      (some "grant_type=refresh_token&refresh_token=XYZ&client_id=abc")
      (some (Json.obj [("access_token", Json.str "new"), ("expires_in", Json.num 3600)]))
    = some { endpoint := "https://auth.example.com/oauth/token", method := "POST"
             body := some [("grant_type", "refresh_token"),
                           ("refresh_token", "$\x7brefreshToken\x7d"),
                           ("client_id", "abc")]
             tokenPath := some "access_token", expiresIn := some 3600 } :=
  claim_c4_refresh "https://auth.example.com/oauth/token" (by decide)

end Unbrowse






